import Mathlib

/-!
Shallow embedding of the file-ingestion and generation pipeline of the
AI-Medical-Solution backend (app/api/endpoints.py, app/services/processing_service.py,
app/services/token_service.py, app/services/generation_service.py), together with
proofs settling the specification claims about it.

External collaborators (the `magic` MIME sniffer, `hashlib.md5`, PyMuPDF (`fitz`),
PIL, the Whisper / vision / text-generation remote calls and the metering backend)
are modelled as explicit oracle parameters: pure inputs describing the one answer
the collaborator gives during the modelled call.  All repository logic itself is
translated directly from the Python source.
-/

namespace MedSolution

/-- Raw file content: a sequence of bytes (values are irrelevant to the logic,
only length and identity of the sequence matter). -/
abbrev ByteSeq := List Nat

/-- Boolean substring containment over lists, structural recursion on the haystack. -/
def listContainsSub : List Char → List Char → Bool
  | pat, [] => pat.isEmpty
  | pat, a :: t => pat.isPrefixOf (a :: t) || listContainsSub pat t

/-- Python's `pat in s` substring test. -/
def strContains (s pat : String) : Bool :=
  listContainsSub pat.data s.data

/-- Python's `s.lower()` (ASCII case folding, which covers the filenames and MIME
strings this code handles).  Defined over the character list so that it reduces
in the kernel. -/
def pyLower (s : String) : String :=
  ⟨s.data.map Char.toLower⟩

/-- Python's `s.strip()`: drop leading and trailing whitespace.  Defined over the
character list so that it reduces in the kernel. -/
def pyStrip (s : String) : String :=
  ⟨((s.data.dropWhile Char.isWhitespace).reverse.dropWhile Char.isWhitespace).reverse⟩

/-- Python's `s.endswith(suf)`. -/
def sEndsWith (s suf : String) : Bool :=
  suf.data.isSuffixOf s.data

/-- Python's `s.endswith(tuple_of_suffixes)`. -/
def endsWithAny (s : String) (exts : List String) : Bool :=
  exts.any (fun e => sEndsWith s e)

/-- AUDIO_EXTENSIONS tuple from `process_single_file` (endpoints.py). -/
def AUDIO_EXTENSIONS : List String :=
  [".mp3", ".wav", ".m4a", ".aac", ".flac", ".ogg",
   ".opus", ".wma", ".aif", ".aiff", ".webm"]

/-- IMAGE_EXTENSIONS tuple from `process_single_file` (endpoints.py). -/
def IMAGE_EXTENSIONS : List String :=
  [".heic", ".heif", ".jpg", ".jpeg", ".png",
   ".gif", ".bmp", ".webp", ".tiff", ".tif"]

/-- The branch of `process_single_file` a file falls into. -/
inductive Route where
  | audio
  | pdf
  | image
  | unsupportedAudioFmt
  | videoUnsupported
  | unsupported
deriving DecidableEq, Repr

/-- Branch selection of `process_single_file` (endpoints.py lines 64-90):
each category is triggered by a MIME-substring test OR an extension test, in the
fixed order audio, pdf, image, video, other.  `mime_type` is the MIME string
detected from the bytes by `magic` (an external collaborator, hence a parameter). -/
def route (filename mime_type : String) : Route :=
  let filename_lower := pyLower filename
  if strContains mime_type "audio" || endsWithAny filename_lower AUDIO_EXTENSIONS then
    -- Special case: M4A files often detected as video/mp4
    if sEndsWith filename_lower ".m4a" || mime_type == "audio/mp4" || mime_type == "audio/x-m4a" then
      .audio
    else if strContains mime_type "audio" || endsWithAny filename_lower AUDIO_EXTENSIONS then
      .audio
    else
      .unsupportedAudioFmt
  else if strContains mime_type "pdf" || sEndsWith filename_lower ".pdf" then
    .pdf
  else if strContains mime_type "image" || endsWithAny filename_lower IMAGE_EXTENSIONS then
    .image
  else if strContains mime_type "video" &&
      endsWithAny filename_lower [".mp4", ".mov", ".avi", ".mkv", ".m4a"] then
    if sEndsWith filename_lower ".m4a" then .audio else .videoUnsupported
  else
    .unsupported

/-! ### Result cache (processing_service.py lines 23-40)

`_file_cache` is a CPython dict, which preserves insertion order; assignment to an
existing key keeps its position, assignment to a fresh key appends.  We model it as
an association list in insertion order. -/

abbrev Cache := List (String × String)

def MAX_CACHE_SIZE : Nat := 100

/-- Python dict assignment `d[k] = v`: update in place if the key is present,
append otherwise. -/
def dictInsert (c : Cache) (k v : String) : Cache :=
  if c.any (fun p => p.1 == k) then
    c.map (fun p => if p.1 == k then (k, v) else p)
  else
    c ++ [(k, v)]

/-- `cache_result` (processing_service.py lines 31-36): when at capacity pop the
first (oldest-inserted) entry, then store. -/
def cache_result (c : Cache) (file_hash result : String) : Cache :=
  let c' := if MAX_CACHE_SIZE ≤ c.length then c.drop 1 else c
  dictInsert c' file_hash result

/-- `get_cached_result` (processing_service.py lines 38-40): `_file_cache.get(h)`. -/
def get_cached_result (c : Cache) (file_hash : String) : Option String :=
  c.lookup file_hash

/-- The `cached = get_cached_result(h); if cached:` pattern used by all three
extractors: a hit only counts if the stored string is truthy (non-empty). -/
def truthyCached (c : Cache) (file_hash : String) : Option String :=
  match get_cached_result c file_hash with
  | some v => if v = "" then none else some v
  | none => none

/-! ### Local PDF extraction (processing_service.py lines 44-66) -/

/-- PDF error marker returned by the `except` branch of `process_pdf_locally`. -/
def PDF_ERROR_MARKER : String := "[Error extracting text from PDF document.]"

/-- `process_pdf_locally`.  `md5` models `get_file_hash` (`hashlib.md5(...).hexdigest()`,
a deterministic digest of the raw bytes).  `fitz_pages` models `fitz.open`: `some pages`
when the byte stream parses as a document with the given per-page `get_text()` results
(in page order), `none` when parsing raises.  The whole body sits in a `try` whose
`except` returns the fixed marker; only the `fitz` call can raise, so the model is
total.  Returns the extracted text together with the updated cache. -/
def process_pdf_locally (md5 : ByteSeq → String) (fitz_pages : Option (List String))
    (file_bytes : ByteSeq) (cache : Cache) : String × Cache :=
  let file_hash := md5 file_bytes
  match truthyCached cache file_hash with
  | some cached => (cached, cache)
  | none =>
    match fitz_pages with
    | none => (PDF_ERROR_MARKER, cache)
    | some pages =>
      let result := pyStrip (String.intercalate "\n" pages)
      (result, cache_result cache file_hash result)

/-! ### Remote audio transcription (processing_service.py lines 70-153) -/

/-- Whisper-supported extensions list from `process_audio_with_api`. -/
def SUPPORTED_FORMATS : List String :=
  [".mp3", ".mp4", ".mpeg", ".mpga", ".m4a", ".wav", ".webm", ".flac", ".ogg", ".opus"]

/-- Stand-in for CPython's `f"{n/(1024*1024):.1f}"` used inside the oversize error
message: megabytes with one decimal digit.  (Binary floating-point formatting is
approximated by exact integer arithmetic; no claim inspects this string.) -/
def mbString (n : Nat) : String :=
  let tenths := (10 * n + (1024 * 1024) / 2) / (1024 * 1024)
  toString (tenths / 10) ++ "." ++ toString (tenths % 10)

/-- Error-message classification of the `except` branch of `process_audio_with_api`
(lines 141-153): heuristic substring matches on the raised message. -/
def transcription_error_text (filename error_msg : String) : String :=
  if strContains error_msg "Invalid file format" || strContains (pyLower error_msg) "format" then
    "[Error: Unsupported audio format for \x27" ++ filename ++
      "\x27. Supported: MP3, M4A, WAV, FLAC, OGG, OPUS, WEBM]"
  else if strContains (pyLower error_msg) "size" then
    "[Error: Audio file \x27" ++ filename ++ "\x27 exceeds 25MB limit.]"
  else if strContains (pyLower error_msg) "timeout" then
    "[Error: Transcription timeout for \x27" ++ filename ++ "\x27. File may be too long.]"
  else
    "[Error transcribing \x27" ++ filename ++ "\x27: " ++ error_msg ++ "]"

/-- Outcome of one extractor invocation that may consult a remote capability:
the produced text, the cache after the call, and whether the remote capability
was actually invoked during this call. -/
structure RemOutcome where
  result : String
  cache : Cache
  remoteCalled : Bool
deriving DecidableEq, Repr

/-- `process_audio_with_api`.  `client_ok` models whether the module-level OpenAI
client initialized; `transcribe` models the one answer the Whisper call would give
on this invocation (`.ok text` for a transcript, `.error msg` for a raised
exception whose `str` is `msg`).  Order of the guards follows the source: cache
lookup, 25MB size check, empty check, extension fix-up, remote call. -/
def process_audio_with_api (md5 : ByteSeq → String) (client_ok : Bool)
    (transcribe : Except String String) (filename : String) (file_bytes : ByteSeq)
    (cache : Cache) : RemOutcome :=
  if !client_ok then
    ⟨"[Error: OpenAI Client not initialized.]", cache, false⟩
  else
    let file_hash := md5 file_bytes
    match truthyCached cache file_hash with
    | some cached => ⟨cached, cache, false⟩
    | none =>
      if 25 * 1024 * 1024 < file_bytes.length then
        ⟨"[Error: Audio file \x27" ++ filename ++ "\x27 is too large (" ++
          mbString file_bytes.length ++ "MB). Maximum size is 25MB.]", cache, false⟩
      else if file_bytes.length = 0 then
        ⟨"[Error: Audio file \x27" ++ filename ++ "\x27 is empty.]", cache, false⟩
      else
        let filename_lower := pyLower filename
        let has_valid_ext := SUPPORTED_FORMATS.any (fun e => sEndsWith filename_lower e)
        -- the fixed-up name only affects the filename hint sent to the remote call
        let _upload_name := if has_valid_ext then filename else filename ++ ".m4a"
        match transcribe with
        | .error error_msg => ⟨transcription_error_text filename error_msg, cache, true⟩
        | .ok transcription =>
          let r := pyStrip transcription
          let result := if r = "" then "[No speech detected in audio file.]" else r
          ⟨result, cache_result cache file_hash result, true⟩

/-! ### Image optimization and remote vision (processing_service.py lines 157-263) -/

/-- `_optimize_image`.  The PIL decode / thumbnail / RGB-convert / JPEG-re-encode
pipeline is modelled by the oracle `pil`: `.ok b` when it would produce re-encoded
bytes `b`, `.error ()` when any of those steps raises.  `filename` is already
lowercased by the caller (line 168 of the source). -/
def optimize_image (filename mime_type : String) (file_bytes : ByteSeq)
    (pil : Except Unit ByteSeq) : ByteSeq :=
  if sEndsWith filename ".heic" || sEndsWith filename ".heif" ||
      strContains mime_type "heic" || strContains mime_type "heif" then
    match pil with
    | .error _ => file_bytes
    | .ok optimized_bytes =>
      if optimized_bytes.length < file_bytes.length then optimized_bytes else file_bytes
  else if strContains mime_type "image" && !strContains mime_type "svg" then
    match pil with
    | .error _ => file_bytes
    | .ok optimized_bytes =>
      if optimized_bytes.length < file_bytes.length then optimized_bytes else file_bytes
  else
    file_bytes

/-- `process_image_with_api`.  `mime_detected` models the inner `magic.from_buffer`
call (`none` when it raises, giving the `"image/jpeg"` fallback); `vis` models the
vision chat completion (`.ok content` or a raised exception).  Guard order follows
the source: cache lookup, empty check, MIME detection, optimization, remote call. -/
def process_image_with_api (md5 : ByteSeq → String) (client_ok : Bool)
    (filename : String) (file_bytes : ByteSeq) (mime_detected : Option String)
    (pil : Except Unit ByteSeq) (vis : Except String String) (cache : Cache) : RemOutcome :=
  if !client_ok then
    ⟨"[Error: OpenAI Client not initialized.]", cache, false⟩
  else
    let filename_lower := pyLower filename
    let file_hash := md5 file_bytes
    match truthyCached cache file_hash with
    | some cached => ⟨cached, cache, false⟩
    | none =>
      if file_bytes.length = 0 then
        ⟨"[Error: Image file \x27" ++ filename ++ "\x27 is empty.]", cache, false⟩
      else
        let mime_type := mime_detected.getD "image/jpeg"
        let _processed_bytes := optimize_image filename_lower mime_type file_bytes pil
        match vis with
        | .error _ => ⟨"[Error processing image: " ++ filename ++ "]", cache, true⟩
        | .ok content => ⟨content, cache_result cache file_hash content, true⟩

/-! ### Per-file pipeline (endpoints.py lines 19-92) -/

/-- Per-file frame produced at the end of `process_single_file` (line 92). -/
def frame (filename text : String) : String :=
  "--- START OF FILE: " ++ filename ++ " ---\n" ++ text ++ "\n--- END OF FILE ---\n"

/-- Outcome of `process_single_file`: the framed text, the cache afterwards and
which remote capabilities were invoked. -/
structure FileOutcome where
  text : String
  cache : Cache
  audioRemote : Bool
  visionRemote : Bool
deriving DecidableEq, Repr

/-- `process_single_file` for a file with a truthy filename: the bytes are read,
`magic` detects `mime_type` (an oracle input), the branch is selected by `route`,
the chosen extractor runs, and the result is framed.  The inner `magic` call of
the image path is passed the same detected type (`magic` is a deterministic
function of the bytes). -/
def process_single_file (md5 : ByteSeq → String) (client_ok : Bool)
    (filename mime_type : String) (file_bytes : ByteSeq)
    (transcribe vis : Except String String) (pil : Except Unit ByteSeq)
    (fitz_pages : Option (List String)) (cache : Cache) : FileOutcome :=
  match route filename mime_type with
  | .audio =>
    let o := process_audio_with_api md5 client_ok transcribe filename file_bytes cache
    ⟨frame filename o.result, o.cache, o.remoteCalled, false⟩
  | .pdf =>
    let r := process_pdf_locally md5 fitz_pages file_bytes cache
    ⟨frame filename r.1, r.2, false, false⟩
  | .image =>
    let o := process_image_with_api md5 client_ok filename file_bytes (some mime_type) pil vis cache
    ⟨frame filename o.result, o.cache, false, o.remoteCalled⟩
  | .unsupportedAudioFmt =>
    ⟨frame filename ("[Unsupported audio format: " ++ filename ++ "]"), cache, false, false⟩
  | .videoUnsupported =>
    ⟨frame filename ("[Video files not supported. Please extract audio first: " ++ filename ++ "]"),
      cache, false, false⟩
  | .unsupported =>
    ⟨frame filename ("[Unsupported file type: " ++ mime_type ++ " - " ++ filename ++ "]"),
      cache, false, false⟩

/-! ### Fan-out aggregation (endpoints.py lines 95-118) -/

/-- One entry of the `files` parameter of `process_files`, abstracted to the data
the aggregator inspects: the filename (Python-falsy when empty) and the outcome
of `process_single_file` on it — `.ok framed_text` for a normal return, `.error e`
for a raised exception (captured by `asyncio.gather(..., return_exceptions=True)`). -/
structure UFile where
  filename : String
  outcome : Except String String

/-- The `valid_files = [f for f in files if f and f.filename]` filter (line 101);
a `none` entry models a `None` element of the list. -/
def pyValid (files : List (Option UFile)) : List UFile :=
  files.filterMap (fun of =>
    match of with
    | none => none
    | some f => if f.filename = "" then none else some f)

/-- What one gathered result contributes to `processed_results` (lines 110-116):
an exception is replaced by an inline error marker, a truthy string is kept, an
empty string is dropped. -/
def fileContribution (f : UFile) : Option String :=
  match f.outcome with
  | .error _ => some ("[Error processing " ++ f.filename ++ "]")
  | .ok r => if r = "" then none else some r

/-- `process_files`: filter invalid entries, gather all per-file tasks
(`asyncio.gather` returns results positionally, in task order), replace captured
exceptions, drop empty results, join with `"\n"`. -/
def process_files (files : List (Option UFile)) : String :=
  if files.isEmpty then ""
  else
    let valid := pyValid files
    if valid.isEmpty then ""
    else
      String.intercalate "\n" (valid.filterMap fileContribution)

/-- Slot-writing model of `asyncio.gather`: child task `i` finishes at its position
in `order` and writes its result into slot `i` of the result array (out-of-range
completions write nowhere).  This is how `gather` collects results internally:
by task index, not by completion time. -/
def fillSlots (tasks : List (Except String String)) :
    List Nat → List (Option (Except String String)) → List (Option (Except String String))
  | [], acc => acc
  | i :: rest, acc =>
    match tasks[i]? with
    | some v => fillSlots tasks rest (acc.set i (some v))
    | none => fillSlots tasks rest acc

/-- Gathered results under an explicit completion schedule. -/
def gatherSched (tasks : List (Except String String)) (order : List Nat) :
    List (Option (Except String String)) :=
  fillSlots tasks order (List.replicate tasks.length none)

/-- Contribution of one `(valid_files[i], results[i])` pair of the collection loop;
a `none` slot (task never completed — impossible under a real schedule) contributes
nothing. -/
def pairContribution (fr : UFile × Option (Except String String)) : Option String :=
  match fr.2 with
  | none => none
  | some (.error _) => some ("[Error processing " ++ fr.1.filename ++ "]")
  | some (.ok r) => if r = "" then none else some r

/-- `process_files` with the gather step made explicit: results are produced under
an arbitrary completion schedule `order` and then paired positionally with
`valid_files`. -/
def process_files_sched (files : List (Option UFile)) (order : List Nat) : String :=
  if files.isEmpty then ""
  else
    let valid := pyValid files
    if valid.isEmpty then ""
    else
      let results := gatherSched (valid.map (·.outcome)) order
      String.intercalate "\n" ((valid.zip results).filterMap pairContribution)

/-! ### Usage gate: admission check (token_service.py lines 8-61) -/

/-- A Python value a JSON field can decode to, as far as `check_user_tokens`
distinguishes them.  `num` covers `int`/`float` (exact rational stand-in for the
numeric comparison `> 0`); Python `bool` is a separate constructor but note that
`isinstance(True, int)` holds, which the model reflects in `pyNumericPos`. -/
inductive PyVal where
  | num (q : ℚ)
  | boolean (b : Bool)
  | str (s : String)
  | null
  | other
deriving DecidableEq, Repr

/-- The `isinstance(x, (int, float))` test followed by `x > 0`: `some positive`
when numeric (a Python `bool` is an `int` with `True == 1`), `none` otherwise. -/
def pyNumericPos : PyVal → Option Bool
  | .num q => some (decide (0 < q))
  | .boolean b => some b
  | _ => none

/-- The `isinstance(x, bool)` test. -/
def pyBoolFlag : PyVal → Option Bool
  | .boolean b => some b
  | _ => none

/-- The fields of `response_json.get("data", {})` that `check_user_tokens` reads;
`none` models an absent key (Python `None`). -/
structure CheckData where
  userToken : Option PyVal
  has_token : Option PyVal
deriving DecidableEq, Repr

/-- What the metering backend does on the admission-check request: the request
raises `httpx.RequestError`, or an HTTP response arrives with a status code and a
body (`none` when the body is not parseable JSON, in which case `response.json()`
raises `json.JSONDecodeError`). -/
inductive CheckOutcome where
  | requestError
  | response (status : Nat) (body : Option CheckData)
deriving DecidableEq, Repr

/-- `check_user_tokens`.  `check_url_configured` models the truthiness of
`CHECK_TOKEN_API_URL`.  The result is `Except Unit Bool`: `.ok b` for a returned
boolean, `.error ()` when the function raises — the `try` only catches
`httpx.RequestError`, so a `json.JSONDecodeError` from `response.json()`
propagates out of the function. -/
def check_user_tokens (check_url_configured : Bool) (user_id : String)
    (o : CheckOutcome) : Except Unit Bool :=
  if !check_url_configured || user_id == "" then .ok true
  else
    match o with
    | .requestError => .ok true
    | .response status body =>
      if status ≠ 200 then .ok true
      else
        match body with
        | none => .error ()
        | some data =>
          match data.userToken.bind pyNumericPos with
          | some has_tokens => .ok has_tokens
          | none =>
            match data.has_token.bind pyBoolFlag with
            | some b => .ok b
            | none => .ok false

/-- Explicit no-balance decision carried by a well-formed body: a numeric
`data.userToken` that is not positive, or (failing a numeric balance) a boolean
`data.has_token` equal to `False`. -/
def explicitNoBalance (d : CheckData) : Bool :=
  match d.userToken.bind pyNumericPos with
  | some b => !b
  | none =>
    match d.has_token.bind pyBoolFlag with
    | some b => !b
    | none => false

/-- A well-formed body in neither recognized format: no numeric `userToken` and no
boolean `has_token`. -/
def unexpectedFormat (d : CheckData) : Bool :=
  (d.userToken.bind pyNumericPos).isNone && (d.has_token.bind pyBoolFlag).isNone

/-- Amended admission contract, written from the corrected claim: fail open
(return true) on missing configuration, missing user id, network failure or a
non-200 status; raise on a 200 response whose body is not valid JSON; on a
well-formed 200 body return false exactly when the body explicitly reports no
balance or is of unexpected format (the code defaults closed), and true
otherwise. -/
def check_admission_amended (check_url_configured : Bool) (user_id : String)
    (o : CheckOutcome) : Except Unit Bool :=
  if check_url_configured = false ∨ user_id = "" then .ok true
  else
    match o with
    | .requestError => .ok true
    | .response status none => if status = 200 then .error () else .ok true
    | .response status (some d) =>
      if status ≠ 200 then .ok true
      else if explicitNoBalance d || unexpectedFormat d then .ok false
      else .ok true

/-! ### Generation result and settlement logic
(generation_service.py lines 50-57, endpoints.py lines 146-179) -/

/-- Sentinel returned by `generate_structured_text` when the model reports no
parts (content-policy block). -/
def blocked_sentinel : String := "[AI response was blocked by content policies.]"

/-- Tail of `generate_structured_text` (generation_service.py lines 55-57):
`response.parts` truthy yields the stripped text, otherwise the blocked
sentinel. -/
def generate_structured_text_model (has_parts : Bool) (response_text : String) : String :=
  if has_parts then pyStrip response_text else blocked_sentinel

/-- Settlement logic of `generate_section_endpoint` (endpoints.py lines 146-179).
First component: how many times `report_and_get_remaining_tokens` is invoked for
the request — one invocation always happens inside the parallel
`asyncio.gather(generation_task, token_reporting_task)` (its value is discarded),
and a second one happens when the marker check passes.  Second component: the
`remaining_token` placed in the response, where `settle_return` models what the
second settlement call returns. -/
def generate_section_token_logic (raw_input_text generated_text : String)
    (settle_return : Int) : Nat × Int :=
  let gather_calls := 1
  if !(strContains raw_input_text "[Error" ||
       strContains generated_text "[AI_ERROR]" ||
       strContains raw_input_text "[Unsupported") then
    (gather_calls + 1, settle_return)
  else
    (gather_calls, -1)

/-- A whole history of store operations applied to the initially empty module
cache, in order. -/
def runCache (ops : List (String × String)) : Cache :=
  ops.foldl (fun c kv => cache_result c kv.1 kv.2) []

/-! ### Helper lemmas -/

theorem sEndsWith_false_of {fl e₁ e₂ : String} (h : sEndsWith fl e₁ = true)
    (h₁ : ¬ e₁.data <:+ e₂.data) (h₂ : ¬ e₂.data <:+ e₁.data) :
    sEndsWith fl e₂ = false := by
  cases hb : sEndsWith fl e₂ with
  | false => rfl
  | true =>
    exfalso
    unfold sEndsWith at h hb
    have s₁ : e₁.data <:+ fl.data := by simpa using h
    have s₂ : e₂.data <:+ fl.data := by simpa using hb
    rcases List.suffix_or_suffix_of_suffix s₁ s₂ with hs | hs
    · exact h₁ hs
    · exact h₂ hs

theorem endsWithAny_false {fl e : String} {exts : List String}
    (h : sEndsWith fl e = true)
    (hx : ∀ s ∈ exts, ¬ e.data <:+ s.data ∧ ¬ s.data <:+ e.data) :
    endsWithAny fl exts = false := by
  induction exts with
  | nil => rfl
  | cons a t ih =>
    have ha := hx a (List.mem_cons_self a t)
    have ht := fun s hs => hx s (List.mem_cons_of_mem a hs)
    have hta : endsWithAny fl t = false := ih ht
    simp only [endsWithAny, List.any_cons, Bool.or_eq_false_iff]
    refine ⟨sEndsWith_false_of h ha.1 ha.2, ?_⟩
    simpa [endsWithAny] using hta

theorem lookup_update_of_any (c : Cache) (k v : String)
    (h : c.any (fun p => p.1 == k) = true) :
    (c.map (fun p => if p.1 == k then (k, v) else p)).lookup k = some v := by
  induction c with
  | nil => simp at h
  | cons p t ih =>
    by_cases hp : p.1 = k
    · simp [List.lookup_cons, hp]
    · have hpk : (p.1 == k) = false := beq_eq_false_iff_ne.mpr hp
      have hkp : (k == p.1) = false := beq_eq_false_iff_ne.mpr (fun hq => hp hq.symm)
      have ht : t.any (fun p => p.1 == k) = true := by
        have h2 := h
        simp only [List.any_cons, hpk, Bool.false_or] at h2
        exact h2
      cases p
      simp only [List.map_cons, hpk, Bool.false_eq_true, if_false, List.lookup_cons, hkp]
      exact ih ht

theorem lookup_append_self (c : Cache) (k v : String)
    (h : c.any (fun p => p.1 == k) = false) :
    (c ++ [(k, v)]).lookup k = some v := by
  induction c with
  | nil => simp [List.lookup_cons]
  | cons p t ih =>
    have h2 := h
    simp only [List.any_cons, Bool.or_eq_false_iff] at h2
    obtain ⟨hpk, ht⟩ := h2
    have hkp : (k == p.1) = false :=
      beq_eq_false_iff_ne.mpr (fun hq => (beq_eq_false_iff_ne.mp hpk) hq.symm)
    cases p
    simp only [List.cons_append, List.lookup_cons, hkp]
    exact ih ht

theorem lookup_dictInsert (c : Cache) (k v : String) :
    (dictInsert c k v).lookup k = some v := by
  unfold dictInsert
  by_cases h : c.any (fun p => p.1 == k) = true
  · simpa [h] using lookup_update_of_any c k v h
  · have hfalse : c.any (fun p => p.1 == k) = false := by
      cases hc : c.any (fun p => p.1 == k)
      · rfl
      · exact absurd hc h
    simpa [hfalse] using lookup_append_self c k v hfalse

theorem truthyCached_cache_result (c : Cache) (k v : String) (hv : v ≠ "") :
    truthyCached (cache_result c k v) k = some v := by
  unfold truthyCached get_cached_result cache_result
  rw [lookup_dictInsert]
  simp [hv]

theorem dictInsert_length_le (c : Cache) (k v : String) :
    (dictInsert c k v).length ≤ c.length + 1 := by
  unfold dictInsert
  by_cases h : c.any (fun p => p.1 == k) = true
  · simp [h]
  · simp [h]

theorem cache_result_length_le (c : Cache) (k v : String)
    (h : c.length ≤ MAX_CACHE_SIZE) :
    (cache_result c k v).length ≤ MAX_CACHE_SIZE := by
  unfold cache_result
  have hM : MAX_CACHE_SIZE = 100 := rfl
  by_cases hfull : MAX_CACHE_SIZE ≤ c.length
  · have hlen : c.length = MAX_CACHE_SIZE := Nat.le_antisymm h hfull
    have h1 := dictInsert_length_le (c.drop 1) k v
    have h2 : (c.drop 1).length = c.length - 1 := by simp [List.length_drop]
    simp only [hfull, if_true]
    omega
  · have h1 := dictInsert_length_le c k v
    simp only [hfull, if_false]
    omega

theorem runCache_length_aux (ops : List (String × String)) :
    ∀ c : Cache, c.length ≤ MAX_CACHE_SIZE →
      (ops.foldl (fun c kv => cache_result c kv.1 kv.2) c).length ≤ MAX_CACHE_SIZE := by
  induction ops with
  | nil => intro c hc; simpa using hc
  | cons op t ih =>
    intro c hc
    exact ih _ (cache_result_length_le c op.1 op.2 hc)

theorem mem_dictInsert {p : String × String} {c : Cache} {k v : String}
    (hp : p ∈ dictInsert c k v) : p.1 = k ∨ p ∈ c := by
  unfold dictInsert at hp
  by_cases h : c.any (fun q => q.1 == k) = true
  · rw [if_pos h] at hp
    rcases List.mem_map.mp hp with ⟨q, hq, rfl⟩
    by_cases hqk : q.1 = k
    · left
      simp [hqk]
    · right
      have hqk2 : (q.1 == k) = false := beq_eq_false_iff_ne.mpr hqk
      simpa [hqk2] using hq
  · rw [if_neg h] at hp
    rcases List.mem_append.mp hp with h1 | h1
    · right; exact h1
    · left
      have := List.mem_singleton.mp h1
      simp [this]

theorem lookup_none_of_keys (l : Cache) (a : String)
    (h : ∀ p ∈ l, p.1 ≠ a) : l.lookup a = none := by
  induction l with
  | nil => rfl
  | cons p t ih =>
    have hpa : (a == p.1) = false :=
      beq_eq_false_iff_ne.mpr (fun hq => (h p (List.mem_cons_self p t)) hq.symm)
    cases p
    simp only [List.lookup_cons, hpa]
    exact ih (fun q hq => h q (List.mem_cons_of_mem _ hq))

theorem fillSlots_length (tasks : List (Except String String)) (order : List Nat) :
    ∀ acc, (fillSlots tasks order acc).length = acc.length := by
  induction order with
  | nil => intro acc; rfl
  | cons i rest ih =>
    intro acc
    cases h : tasks[i]? with
    | none => simp [fillSlots, h, ih]
    | some v => simp [fillSlots, h, ih, List.length_set]

theorem fillSlots_not_mem (tasks : List (Except String String)) (order : List Nat)
    (j : Nat) (hj : j ∉ order) :
    ∀ acc, (fillSlots tasks order acc)[j]? = acc[j]? := by
  induction order with
  | nil => intro acc; rfl
  | cons i rest ih =>
    intro acc
    have hji : j ≠ i := fun h => hj (h ▸ List.mem_cons_self i rest)
    have hjr : j ∉ rest := fun h => hj (List.mem_cons_of_mem i h)
    cases h : tasks[i]? with
    | none => simp [fillSlots, h, ih hjr]
    | some v =>
      simp only [fillSlots, h]
      rw [ih hjr]
      exact List.getElem?_set_ne (fun h => hji h.symm)

theorem fillSlots_mem (tasks : List (Except String String)) (order : List Nat)
    (j : Nat) (v : Except String String) (hv : tasks[j]? = some v) (hj : j ∈ order) :
    ∀ acc, acc.length = tasks.length →
      (fillSlots tasks order acc)[j]? = some (some v) := by
  induction order with
  | nil => exact absurd hj (List.not_mem_nil j)
  | cons i rest ih =>
    intro acc hlen
    by_cases hjr : j ∈ rest
    · cases h : tasks[i]? with
      | none => simpa [fillSlots, h] using ih hjr acc hlen
      | some w =>
        simpa [fillSlots, h] using ih hjr (acc.set i (some w)) (by simp [List.length_set, hlen])
    · have hji : j = i := by
        rcases List.mem_cons.mp hj with h | h
        · exact h
        · exact absurd h hjr
      subst hji
      have hjlt : j < acc.length := by
        rw [hlen]
        exact (List.getElem?_eq_some_iff.mp hv).1
      simp only [fillSlots, hv]
      rw [fillSlots_not_mem tasks rest j hjr]
      exact List.getElem?_set_self hjlt

theorem gatherSched_perm (tasks : List (Except String String)) (order : List Nat)
    (h : order.Perm (List.range tasks.length)) :
    gatherSched tasks order = tasks.map some := by
  apply List.ext_getElem?
  intro j
  by_cases hj : j < tasks.length
  · have hjm : j ∈ order := h.mem_iff.mpr (List.mem_range.mpr hj)
    have hv : tasks[j]? = some tasks[j] := List.getElem?_eq_getElem hj
    rw [gatherSched, fillSlots_mem tasks order j tasks[j] hv hjm _ (by simp)]
    simp [List.getElem?_map, List.getElem?_eq_getElem hj]
  · have hjm : j ∉ order := fun hmem => hj (List.mem_range.mp (h.mem_iff.mp hmem))
    rw [gatherSched, fillSlots_not_mem tasks order j hjm]
    have h1 : tasks[j]? = none := List.getElem?_eq_none (Nat.le_of_not_lt hj)
    have h2 : (List.replicate tasks.length (none : Option (Except String String)))[j]? = none :=
      List.getElem?_eq_none (by simpa using Nat.le_of_not_lt hj)
    simp [h1, h2]

theorem zip_map_some_filterMap (l : List UFile) :
    (l.zip ((l.map (fun f => f.outcome)).map some)).filterMap pairContribution
      = l.filterMap fileContribution := by
  induction l with
  | nil => rfl
  | cons f t ih =>
    simp only [List.map_cons, List.map_map, List.zip_cons_cons, List.filterMap_cons] at ih ⊢
    cases hfo : f.outcome with
    | error e =>
      simp [pairContribution, fileContribution, hfo, List.map_map] at ih ⊢
      simp [ih]
    | ok r =>
      by_cases hr : r = "" <;>
        · simp [pairContribution, fileContribution, hfo, hr, List.map_map] at ih ⊢
          simp [ih]

/-! ### Claim theorems -/

/-- C1: the claim says the settlement call is invoked at most once per request and
not at all when the generated text is the blocked sentinel (with -1 returned).
The code contradicts its own "only deduct tokens if the entire process was
successful" comment: `report_and_get_remaining_tokens` always runs once inside the
parallel `asyncio.gather` (endpoints.py line 159), and the marker check at line 169
looks for "[AI_ERROR]" in the generated text — a substring the generator's actual
blocked sentinel does not contain — so a second settlement call runs and its
balance (here 7) is returned instead of -1. -/
theorem C1_settlement_runs_despite_blocked_output :
    generate_structured_text_model false "any text" = blocked_sentinel ∧
    strContains blocked_sentinel "[AI_ERROR]" = false ∧
    generate_section_token_logic "" blocked_sentinel 7 = (2, 7) := by
  refine ⟨rfl, ?_, ?_⟩ <;> decide

/-- C2 counterexample: on a well-formed 200 response whose body has neither a
numeric `userToken` nor a boolean `has_token`, `check_user_tokens` returns false
(the claim requires true for every unexpected response), and on a 200 response
whose body is not valid JSON it raises (the claim says it never raises). -/
theorem C2_unexpected_response_counterexample :
    check_user_tokens true "u" (.response 200 (some ⟨none, none⟩)) = .ok false ∧
    check_user_tokens true "u" (.response 200 none) = .error () :=
  ⟨rfl, rfl⟩

/-- C2 amended: `check_user_tokens` fails open (true) on missing configuration,
missing user id, network failure, or non-200 status; raises on a 200 response with
an unparseable body; and on a well-formed 200 body returns false exactly when the
body explicitly reports no balance or is of unexpected format (defaulting closed,
not open, on unexpected formats). -/
theorem C2_check_user_tokens_amended (cfg : Bool) (uid : String) (o : CheckOutcome) :
    check_user_tokens cfg uid o = check_admission_amended cfg uid o := by
  cases cfg
  · simp [check_user_tokens, check_admission_amended]
  · by_cases hu : uid = ""
    · simp [check_user_tokens, check_admission_amended, hu]
    · have hub : (uid == "") = false := beq_eq_false_iff_ne.mpr hu
      cases o with
      | requestError => simp [check_user_tokens, check_admission_amended, hu, hub]
      | response st body =>
        by_cases hst : st = 200
        · subst hst
          cases body with
          | none => simp [check_user_tokens, check_admission_amended, hu, hub]
          | some d =>
            simp only [check_user_tokens, check_admission_amended, hub, Bool.not_true,
              Bool.false_or, if_false, ne_eq, not_true_eq_false, ite_false]
            cases h1 : d.userToken.bind pyNumericPos with
            | some b =>
              cases b <;> simp [check_user_tokens, check_admission_amended,
                explicitNoBalance, unexpectedFormat, h1, hu, hub]
            | none =>
              cases h2 : d.has_token.bind pyBoolFlag with
              | some b =>
                cases b <;> simp [check_user_tokens, check_admission_amended,
                  explicitNoBalance, unexpectedFormat, h1, h2, hu, hub]
              | none =>
                simp [check_user_tokens, check_admission_amended,
                  explicitNoBalance, unexpectedFormat, h1, h2, hu, hub]
        · cases body with
          | none => simp [check_user_tokens, check_admission_amended, hu, hub, hst]
          | some d => simp [check_user_tokens, check_admission_amended, hu, hub, hst]

/-- C10: `_optimize_image` never raises (the model is total: every PIL failure is
absorbed into returning the original), never returns more bytes than it was given,
and returns something other than the original bytes only when the PIL re-encode
succeeded and produced strictly fewer bytes. -/
theorem C10_optimize_image_size (fn mime : String) (bytes : ByteSeq)
    (pil : Except Unit ByteSeq) :
    (optimize_image fn mime bytes pil).length ≤ bytes.length ∧
    (optimize_image fn mime bytes pil = bytes ∨
      (pil = .ok (optimize_image fn mime bytes pil) ∧
        (optimize_image fn mime bytes pil).length < bytes.length)) := by
  unfold optimize_image
  by_cases h1 : (sEndsWith fn ".heic" || sEndsWith fn ".heif" ||
      strContains mime "heic" || strContains mime "heif") = true
  · rw [if_pos h1]
    cases pil with
    | error u =>
      dsimp only
      exact ⟨Nat.le_refl _, Or.inl rfl⟩
    | ok ob =>
      dsimp only
      by_cases h2 : ob.length < bytes.length
      · rw [if_pos h2]
        exact ⟨Nat.le_of_lt h2, Or.inr ⟨rfl, h2⟩⟩
      · rw [if_neg h2]
        exact ⟨Nat.le_refl _, Or.inl rfl⟩
  · rw [if_neg h1]
    by_cases h3 : (strContains mime "image" && !strContains mime "svg") = true
    · rw [if_pos h3]
      cases pil with
      | error u =>
      dsimp only
      exact ⟨Nat.le_refl _, Or.inl rfl⟩
      | ok ob =>
        dsimp only
        by_cases h2 : ob.length < bytes.length
        · rw [if_pos h2]
          exact ⟨Nat.le_of_lt h2, Or.inr ⟨rfl, h2⟩⟩
        · rw [if_neg h2]
          exact ⟨Nat.le_refl _, Or.inl rfl⟩
    · rw [if_neg h3]
      exact ⟨Nat.le_refl _, Or.inl rfl⟩

/-- C3 counterexample: a file named `x.pdf` whose detected MIME type is audio is
routed to the audio branch (and hence the transcription extractor), not the PDF
extractor — classification is not extension-first. -/
theorem C3_pdf_name_audio_mime_counterexample :
    route "x.pdf" "audio/mpeg" = .audio ∧
    (process_single_file (fun _ => "h") true "x.pdf" "audio/mpeg" [1]
        (.ok "spoken words") (.error "") (.error ()) (some ["pdf text"]) []).audioRemote = true ∧
    (process_single_file (fun _ => "h") true "x.pdf" "audio/mpeg" [1]
        (.ok "spoken words") (.error "") (.error ()) (some ["pdf text"]) []).text
      = frame "x.pdf" "spoken words" := by
  refine ⟨?_, ?_, ?_⟩ <;> decide

/-- C3 amended: a file whose lowercased name ends with ".pdf" is classified Pdf
and dispatched to the local PDF extractor provided its detected MIME type does not
contain "audio" (the audio branch is tested first and triggers on the MIME
substring alone; a ".pdf" name can never match an audio extension, so the
extension side is vacuous). -/
theorem C3_pdf_extension_routes_pdf (fn mime : String)
    (hpdf : sEndsWith (pyLower fn) ".pdf" = true)
    (hmime : strContains mime "audio" = false) :
    route fn mime = .pdf ∧
    ∀ (md5 : ByteSeq → String) (ck : Bool) (bytes : ByteSeq)
      (tr vis : Except String String) (pil : Except Unit ByteSeq)
      (pp : Option (List String)) (c : Cache),
      (process_single_file md5 ck fn mime bytes tr vis pil pp c).text
        = frame fn (process_pdf_locally md5 pp bytes c).1 ∧
      (process_single_file md5 ck fn mime bytes tr vis pil pp c).audioRemote = false := by
  have hA : endsWithAny (pyLower fn) AUDIO_EXTENSIONS = false :=
    endsWithAny_false hpdf (by decide)
  have hroute : route fn mime = .pdf := by
    unfold route
    simp [hA, hmime, hpdf]
  refine ⟨hroute, ?_⟩
  intro md5 ck bytes tr vis pil pp c
  simp [process_single_file, hroute]

/-- C3 witness. -/
theorem C3_pdf_extension_routes_pdf_witness :
    route "x.pdf" "application/pdf" = .pdf ∧
    (process_single_file (fun _ => "h") true "x.pdf" "application/pdf" [1]
        (.ok "t") (.ok "v") (.error ()) (some ["page"]) []).text
      = frame "x.pdf" (process_pdf_locally (fun _ => "h") (some ["page"]) [1] []).1 := by
  have h := C3_pdf_extension_routes_pdf "x.pdf" "application/pdf" (by decide) (by decide)
  exact ⟨h.1, (h.2 (fun _ => "h") true [1] (.ok "t") (.ok "v") (.error ()) (some ["page"]) []).1⟩

/-- C5 counterexample: a file named `x.mov` whose detected MIME type does not
contain "video" (here `application/octet-stream`, e.g. an unrecognized container)
is NOT classified as the video-unsupported case: it falls through to the generic
unsupported branch whose reason does not mention audio extraction.  The video
branch requires the MIME substring "video" in addition to the extension. -/
theorem C5_mov_without_video_mime_counterexample :
    route "x.mov" "application/octet-stream" = .unsupported ∧
    (process_single_file (fun _ => "h") true "x.mov" "application/octet-stream" [1]
        (.error "") (.error "") (.error ()) none []).text
      = frame "x.mov" "[Unsupported file type: application/octet-stream - x.mov]" ∧
    strContains
      ((process_single_file (fun _ => "h") true "x.mov" "application/octet-stream" [1]
          (.error "") (.error "") (.error ()) none []).text)
      "extract audio" = false := by
  refine ⟨?_, ?_, ?_⟩ <;> decide

/-- C5 amended: (a) every file whose lowercased name ends with ".m4a" is routed to
Audio, whatever its detected MIME type (in particular a video MIME); (b) a file
whose name ends with .mov/.mp4/.avi/.mkv is routed to the video-unsupported branch
— with the "Please extract audio first" reason — when its detected MIME type
contains "video" and contains none of "audio", "pdf", "image" (otherwise an
earlier branch fires, as the counterexample shows). -/
theorem C5_video_and_m4a_routing (fn mime : String) :
    (sEndsWith (pyLower fn) ".m4a" = true → route fn mime = .audio) ∧
    (∀ e, e ∈ [".mov", ".mp4", ".avi", ".mkv"] → sEndsWith (pyLower fn) e = true →
      strContains mime "video" = true → strContains mime "audio" = false →
      strContains mime "pdf" = false → strContains mime "image" = false →
      route fn mime = .videoUnsupported ∧
      ∀ (md5 : ByteSeq → String) (ck : Bool) (bytes : ByteSeq)
        (tr vis : Except String String) (pil : Except Unit ByteSeq)
        (pp : Option (List String)) (c : Cache),
        (process_single_file md5 ck fn mime bytes tr vis pil pp c).text
          = frame fn ("[Video files not supported. Please extract audio first: " ++ fn ++ "]")) := by
  constructor
  · intro hm4a
    have hin : endsWithAny (pyLower fn) AUDIO_EXTENSIONS = true := by
      unfold endsWithAny AUDIO_EXTENSIONS
      simp only [List.any_cons, List.any_nil, Bool.or_eq_true]
      tauto
    unfold route
    simp [hin, hm4a]
  · intro e he hend hvid haud hpdf himg
    have he2 : e = ".mov" ∨ e = ".mp4" ∨ e = ".avi" ∨ e = ".mkv" := by simpa using he
    have hroute : route fn mime = .videoUnsupported := by
      rcases he2 with rfl | rfl | rfl | rfl <;>
      · have hA : endsWithAny (pyLower fn) AUDIO_EXTENSIONS = false :=
          endsWithAny_false hend (by decide)
        have hP : sEndsWith (pyLower fn) ".pdf" = false :=
          sEndsWith_false_of hend (by decide) (by decide)
        have hI : endsWithAny (pyLower fn) IMAGE_EXTENSIONS = false :=
          endsWithAny_false hend (by decide)
        have hV : endsWithAny (pyLower fn) [".mp4", ".mov", ".avi", ".mkv", ".m4a"] = true := by
          unfold endsWithAny
          simp only [List.any_cons, List.any_nil, Bool.or_eq_true]
          tauto
        have hM : sEndsWith (pyLower fn) ".m4a" = false :=
          sEndsWith_false_of hend (by decide) (by decide)
        unfold route
        simp [hA, haud, hpdf, hP, himg, hI, hvid, hV, hM]
    refine ⟨hroute, ?_⟩
    intro md5 ck bytes tr vis pil pp c
    simp [process_single_file, hroute]

/-- C5 witness. -/
theorem C5_video_and_m4a_routing_witness :
    route "c.m4a" "video/mp4" = .audio ∧
    route "v.mov" "video/quicktime" = .videoUnsupported ∧
    (process_single_file (fun _ => "h") true "v.mov" "video/quicktime" [1]
        (.error "") (.error "") (.error ()) none []).text
      = frame "v.mov" ("[Video files not supported. Please extract audio first: " ++ "v.mov" ++ "]") := by
  have h1 := (C5_video_and_m4a_routing "c.m4a" "video/mp4").1 (by decide)
  have h2 := (C5_video_and_m4a_routing "v.mov" "video/quicktime").2 ".mov" (by decide)
    (by decide) (by decide) (by decide) (by decide) (by decide)
  exact ⟨h1, h2.1, h2.2 (fun _ => "h") true [1] (.error "") (.error "") (.error ()) none []⟩

/-- C4 counterexample: a zero-byte file with the valid name `doc.pdf` (detected
MIME of empty content is `application/x-empty`) is dispatched to the PDF
extractor, which fails to parse the empty stream and produces the fixed PDF error
marker — not a "file is empty" marker; no marker mentioning emptiness appears in
the frame. -/
theorem C4_empty_pdf_counterexample :
    (process_single_file (fun _ => "h") true "doc.pdf" "application/x-empty" []
        (.error "e") (.error "e") (.error ()) none []).text
      = frame "doc.pdf" PDF_ERROR_MARKER ∧
    strContains
      ((process_single_file (fun _ => "h") true "doc.pdf" "application/x-empty" []
          (.error "e") (.error "e") (.error ()) none []).text)
      "is empty" = false := by
  refine ⟨?_, ?_⟩ <;> decide

/-- C4 amended: for a zero-byte file (with no previously cached truthy result for
the digest of the empty content) no remote capability is ever invoked; a file
routed to the audio or image branch gets an inline "... is empty" marker produced
inside the extractor before the remote call; a file routed to the PDF branch gets
the fixed PDF parse-error marker (parsing the empty stream raises). -/
theorem C4_empty_file_short_circuit (md5 : ByteSeq → String) (fn mime : String)
    (tr vis : Except String String) (pil : Except Unit ByteSeq)
    (pp : Option (List String)) (c : Cache)
    (hc : truthyCached c (md5 []) = none) :
    (process_single_file md5 true fn mime [] tr vis pil pp c).audioRemote = false ∧
    (process_single_file md5 true fn mime [] tr vis pil pp c).visionRemote = false ∧
    (route fn mime = .audio →
      (process_single_file md5 true fn mime [] tr vis pil pp c).text
        = frame fn ("[Error: Audio file \x27" ++ fn ++ "\x27 is empty.]")) ∧
    (route fn mime = .image →
      (process_single_file md5 true fn mime [] tr vis pil pp c).text
        = frame fn ("[Error: Image file \x27" ++ fn ++ "\x27 is empty.]")) ∧
    (route fn mime = .pdf → pp = none →
      (process_single_file md5 true fn mime [] tr vis pil pp c).text
        = frame fn PDF_ERROR_MARKER) := by
  cases hr : route fn mime
  case audio => simp [process_single_file, hr, process_audio_with_api, hc]
  case pdf =>
    simp [process_single_file, hr, process_pdf_locally, hc]
    rintro rfl
    rfl
  case image => simp [process_single_file, hr, process_image_with_api, hc]
  case unsupportedAudioFmt => simp [process_single_file, hr]
  case videoUnsupported => simp [process_single_file, hr]
  case unsupported => simp [process_single_file, hr]

/-- C4 witness. -/
theorem C4_empty_file_short_circuit_witness :
    (process_single_file (fun _ => "h") true "v.mp3" "application/x-empty" []
        (.error "e") (.error "e") (.error ()) none []).audioRemote = false ∧
    (process_single_file (fun _ => "h") true "v.mp3" "application/x-empty" []
        (.error "e") (.error "e") (.error ()) none []).text
      = frame "v.mp3" ("[Error: Audio file \x27" ++ "v.mp3" ++ "\x27 is empty.]") := by
  have h := C4_empty_file_short_circuit (fun _ => "h") "v.mp3" "application/x-empty"
    (.error "e") (.error "e") (.error ()) none [] rfl
  exact ⟨h.1, h.2.2.1 (by decide)⟩

/-- C7: two sequential transcription calls on byte-identical content, where the
first succeeds (its remote call returns a transcript, or a truthy cached value is
already present), give the second call the identical text from the cache without
invoking the remote capability — whatever filename or remote behaviour the second
call has.  The cache key `md5 file_bytes` depends only on the raw bytes, so the
filenames `fn₁`, `fn₂` are arbitrary and unrelated. -/
theorem C7_audio_cache_idempotent (md5 : ByteSeq → String) (t fn₁ fn₂ : String)
    (tr₂ : Except String String) (bytes : ByteSeq) (c : Cache)
    (hne : bytes ≠ []) (hsz : bytes.length ≤ 25 * 1024 * 1024) :
    (process_audio_with_api md5 true tr₂ fn₂ bytes
        (process_audio_with_api md5 true (.ok t) fn₁ bytes c).cache).result
      = (process_audio_with_api md5 true (.ok t) fn₁ bytes c).result ∧
    (process_audio_with_api md5 true tr₂ fn₂ bytes
        (process_audio_with_api md5 true (.ok t) fn₁ bytes c).cache).remoteCalled = false := by
  have hlen0 : ¬ bytes.length = 0 := by simpa using hne
  have hsz2 : ¬ 25 * 1024 * 1024 < bytes.length := Nat.not_lt.mpr hsz
  cases hL : truthyCached c (md5 bytes) with
  | some v =>
    simp [process_audio_with_api, hL]
  | none =>
    have hres : (process_audio_with_api md5 true (.ok t) fn₁ bytes c)
        = ⟨if pyStrip t = "" then "[No speech detected in audio file.]" else pyStrip t,
           cache_result c (md5 bytes)
             (if pyStrip t = "" then "[No speech detected in audio file.]" else pyStrip t),
           true⟩ := by
      simp [process_audio_with_api, hL, hsz2, hlen0]
    have hnev : (if pyStrip t = "" then "[No speech detected in audio file.]" else pyStrip t) ≠ "" := by
      by_cases hts : pyStrip t = "" <;> simp [hts]
    rw [hres]
    rw [process_audio_with_api]
    simp [truthyCached_cache_result c (md5 bytes) _ hnev]

/-- C7 witness. -/
theorem C7_audio_cache_idempotent_witness :
    (process_audio_with_api (fun _ => "h") true (.error "boom") "b.wav" [0]
        (process_audio_with_api (fun _ => "h") true (.ok "hello") "a.mp3" [0] []).cache).result
      = (process_audio_with_api (fun _ => "h") true (.ok "hello") "a.mp3" [0] []).result ∧
    (process_audio_with_api (fun _ => "h") true (.error "boom") "b.wav" [0]
        (process_audio_with_api (fun _ => "h") true (.ok "hello") "a.mp3" [0] []).cache).remoteCalled
      = false :=
  C7_audio_cache_idempotent (fun _ => "h") "hello" "a.mp3" "b.wav" (.error "boom") [0] []
    (by decide) (by decide)

/-- C8: starting from the empty module cache, any sequence of `cache_result`
stores leaves at most MAX_CACHE_SIZE (100) entries; and a store performed on a
full cache evicts the oldest-inserted entry — the head of the insertion order —
so that (when its key is distinct from the rest and from the new key) it is no
longer found, while the cache stays within capacity.  `cache_result` is a total
function: inserting into a full cache is well-defined and never raises. -/
theorem C8_cache_bound_and_fifo :
    (∀ ops : List (String × String), (runCache ops).length ≤ MAX_CACHE_SIZE) ∧
    (∀ (k v k₀ v₀ : String) (rest : Cache),
      ((k₀, v₀) :: rest : Cache).length = MAX_CACHE_SIZE →
      (∀ p ∈ rest, p.1 ≠ k₀) → k₀ ≠ k →
      get_cached_result (cache_result ((k₀, v₀) :: rest) k v) k₀ = none ∧
      (cache_result ((k₀, v₀) :: rest) k v).length ≤ MAX_CACHE_SIZE) := by
  constructor
  · intro ops
    exact runCache_length_aux ops [] (by simp [MAX_CACHE_SIZE])
  · intro k v k₀ v₀ rest hlen hdist hkk
    have hfull : MAX_CACHE_SIZE ≤ ((k₀, v₀) :: rest : Cache).length := Nat.le_of_eq hlen.symm
    have hstep : cache_result ((k₀, v₀) :: rest) k v = dictInsert rest k v := by
      have hfull2 : MAX_CACHE_SIZE ≤ rest.length + 1 := by simpa using hfull
      unfold cache_result
      simp [hfull2]
    constructor
    · rw [hstep]
      apply lookup_none_of_keys
      intro p hp
      rcases mem_dictInsert hp with h | h
      · rw [h]
        exact fun hq => hkk hq.symm
      · exact hdist p h
    · rw [hstep]
      have h1 := dictInsert_length_le rest k v
      have h2 : rest.length + 1 = MAX_CACHE_SIZE := by simpa using hlen
      omega

/-- C8 witness: a concrete full cache of 100 distinct keys headed by "k0"; storing
a fresh key evicts "k0" and keeps the size at 100. -/
theorem C8_cache_bound_and_fifo_witness :
    (runCache [("h1", "a"), ("h1", "b"), ("h2", "c")]).length ≤ MAX_CACHE_SIZE ∧
    (get_cached_result
        (cache_result (("k0", "v") :: (List.range 99).map (fun n => ("a" ++ toString n, "v")))
          "x" "w") "k0" = none ∧
      (cache_result (("k0", "v") :: (List.range 99).map (fun n => ("a" ++ toString n, "v")))
          "x" "w").length ≤ MAX_CACHE_SIZE) := by
  constructor
  · exact C8_cache_bound_and_fifo.1 [("h1", "a"), ("h1", "b"), ("h2", "c")]
  · exact C8_cache_bound_and_fifo.2 "x" "w" "k0" "v"
      ((List.range 99).map (fun n => ("a" ++ toString n, "v")))
      (by simp [MAX_CACHE_SIZE]) (by decide) (by decide)

/-- C9: `process_pdf_locally` never raises (its model is total; the `except`
branch absorbs every `fitz` failure), and — when no truthy cached value is
already stored under the content digest — returns the newline-joined
concatenation of the per-page texts in page order, stripped of leading and
trailing whitespace, when parsing succeeds, and the fixed error marker when
parsing fails.  (On a cache hit it returns the previously stored text instead.) -/
theorem C9_pdf_extraction_semantics (md5 : ByteSeq → String)
    (pp : Option (List String)) (bytes : ByteSeq) (c : Cache)
    (hc : truthyCached c (md5 bytes) = none) :
    (process_pdf_locally md5 pp bytes c).1
      = match pp with
        | some pages => pyStrip (String.intercalate "\n" pages)
        | none => PDF_ERROR_MARKER := by
  unfold process_pdf_locally
  dsimp only
  rw [hc]
  cases pp <;> rfl

/-- C9 witness: a two-page document round-trips to its page texts joined by a
newline and stripped at the ends. -/
theorem C9_pdf_extraction_semantics_witness :
    (process_pdf_locally (fun _ => "h") (some ["  page one", "page two  "]) [1, 2] []).1
      = pyStrip (String.intercalate "\n" ["  page one", "page two  "]) ∧
    (process_pdf_locally (fun _ => "h") none [1, 2] []).1 = PDF_ERROR_MARKER := by
  constructor
  · exact C9_pdf_extraction_semantics (fun _ => "h") (some ["  page one", "page two  "]) [1, 2] [] rfl
  · exact C9_pdf_extraction_semantics (fun _ => "h") none [1, 2] [] rfl

/-- C6: `process_files` returns "" for an empty list and for a list with only
invalid (nameless or missing) entries; otherwise the result is the per-file
texts — each valid file's framed output, or an inline error marker replacing a
task that raised — joined with `"\n"` in the original input order.  The slot
model `process_files_sched` shows the gather step is completion-order
independent: any completion schedule that is a permutation of the task indices
produces the same output; and one file's raised exception only replaces that
file's own contribution, leaving every sibling contribution in place and in
order. -/
theorem C6_process_files_deterministic (files : List (Option UFile)) (order : List Nat)
    (hperm : order.Perm (List.range (pyValid files).length)) :
    process_files_sched files order = process_files files ∧
    (files = [] → process_files files = "") ∧
    (pyValid files = [] → process_files files = "") ∧
    process_files files = String.intercalate "\n" ((pyValid files).filterMap fileContribution) ∧
    (∀ (pre post : List (Option UFile)) (x : UFile) (e : String),
      x.filename ≠ "" → x.outcome = .error e →
      process_files (pre ++ some x :: post)
        = String.intercalate "\n"
            ((pyValid pre).filterMap fileContribution ++
              ("[Error processing " ++ x.filename ++ "]") ::
                (pyValid post).filterMap fileContribution)) := by
  refine ⟨?_, ?_, ?_, ?_, ?_⟩
  · by_cases hE : files.isEmpty = true
    · simp [process_files_sched, process_files, hE]
    · have hE2 : files.isEmpty = false := by
        cases h : files.isEmpty
        · rfl
        · exact absurd h hE
      by_cases hV : (pyValid files).isEmpty = true
      · simp [process_files_sched, process_files, hE2, hV]
      · have hV2 : (pyValid files).isEmpty = false := by
          cases h : (pyValid files).isEmpty
          · rfl
          · exact absurd h hV
        have hperm2 : order.Perm (List.range ((pyValid files).map (fun f => f.outcome)).length) := by
          simpa using hperm
        simp only [process_files_sched, process_files, hE2, hV2, Bool.false_eq_true,
          if_false, gatherSched_perm _ _ hperm2, zip_map_some_filterMap]
  · intro h
    simp [process_files, h]
  · intro h
    simp [process_files, h]
  · by_cases hE : files.isEmpty = true
    · have : files = [] := by simpa using hE
      simp only [process_files, this, pyValid, List.filterMap_nil, List.isEmpty_nil, if_true]
      rfl
    · have hE2 : files.isEmpty = false := by
        cases h : files.isEmpty
        · rfl
        · exact absurd h hE
      by_cases hV : (pyValid files).isEmpty = true
      · have : pyValid files = [] := by simpa using hV
        simp only [process_files, hE2, Bool.false_eq_true, if_false, this,
          List.filterMap_nil, List.isEmpty_nil, if_true]
        rfl
      · have hV2 : (pyValid files).isEmpty = false := by
          cases h : (pyValid files).isEmpty
          · rfl
          · exact absurd h hV
        simp [process_files, hE2, hV2]
  · intro pre post x e hname houtcome
    have hne : (pre ++ some x :: post) ≠ [] := by simp
    have hE2 : (pre ++ some x :: post).isEmpty = false := by simp [hne]
    have hsplit : pyValid (pre ++ some x :: post) = pyValid pre ++ x :: pyValid post := by
      unfold pyValid
      rw [List.filterMap_append]
      simp [hname]
    have hV2 : (pyValid (pre ++ some x :: post)).isEmpty = false := by
      simp [hsplit]
    simp only [process_files, hE2, Bool.false_eq_true, if_false, hV2, hsplit]
    rw [List.filterMap_append]
    simp [fileContribution, houtcome]

/-- C6 witness: a concrete file list with a missing entry, a nameless entry, one
successful file and one raising file, gathered under the reversed completion
schedule. -/
theorem C6_process_files_deterministic_witness :
    process_files_sched
        [some ⟨"a.pdf", .ok "frameA"⟩, none, some ⟨"", .ok "zz"⟩, some ⟨"b.mp3", .error "boom"⟩]
        [1, 0]
      = process_files
          [some ⟨"a.pdf", .ok "frameA"⟩, none, some ⟨"", .ok "zz"⟩, some ⟨"b.mp3", .error "boom"⟩] ∧
    process_files [] = "" ∧
    process_files [none, some ⟨"", .ok "zz"⟩] = "" ∧
    process_files [some ⟨"a.pdf", .ok "frameA"⟩, some ⟨"b.mp3", .error "boom"⟩]
      = String.intercalate "\n"
          ((pyValid [some ⟨"a.pdf", .ok "frameA"⟩]).filterMap fileContribution ++
            ("[Error processing " ++ "b.mp3" ++ "]") ::
              (pyValid ([] : List (Option UFile))).filterMap fileContribution) := by
  refine ⟨?_, ?_, ?_, ?_⟩
  · exact (C6_process_files_deterministic
      [some ⟨"a.pdf", .ok "frameA"⟩, none, some ⟨"", .ok "zz"⟩, some ⟨"b.mp3", .error "boom"⟩]
      [1, 0] (by decide)).1
  · exact (C6_process_files_deterministic [] [] (by decide)).2.1 rfl
  · exact (C6_process_files_deterministic [none, some ⟨"", .ok "zz"⟩] [] (by decide)).2.2.1 rfl
  · exact (C6_process_files_deterministic
      [some ⟨"a.pdf", .ok "frameA"⟩, some ⟨"b.mp3", .error "boom"⟩] [0, 1] (by decide)).2.2.2.2
      [some ⟨"a.pdf", .ok "frameA"⟩] [] ⟨"b.mp3", .error "boom"⟩ "boom" (by decide) rfl

end MedSolution
